import Mathlib

/-!
A shallow embedding of the `gt3` fixed-timestep frame loop
(`frameloop.go`).  The repository ships two variants of the scheduler:

* the primary variant (`Gt3` namespace below): `Sim` with an `fps`
  read/write lock, `SetFPS`/`SetRenderFPS` setters, `runSim` whose
  stepping loop runs `for now = s.Now(); sim < now; now = s.Now()`,
  whose render call passes the real-time reading `now` as the frame
  time, and whose `runSim` returns `ErrStopped` when the stop channel
  has fired (so `Run` returns that non-nil error);
* the secondary variant (`Gt3.V2` namespace): no setters, stepping loop
  `for hz := s.hz; sim+hz <= now`, render call passing the stepped
  simulation time `sim`, and `Run` returning nil when the stop channel
  has fired.

Modelling conventions:

* Go `float64` values held by the scheduler are modelled by `GF`, a
  rational number or positive infinity.  Infinity is reachable in the
  primary variant: `SetFPS(0)` and `SetRenderFPS(0)` store
  `1.0 / float64(0) = +Inf`.  Rounding of finite IEEE-754 arithmetic is
  not modelled (the spec constrains these values only up to
  floating-point tolerance); NaN and negative infinity are unreachable
  in the scheduler (no `0/0`, no `inf - inf` on any reachable path).
  The secondary variant has no setters, so all of its float values stay
  finite and are modelled by `ℚ` directly.
* Go `int` / `int64` are modelled by `Int`.
* The external monotonic time source is modelled by a stream
  `nows : ℕ → ℚ` of successive values of `s.Now()`; reads of the shared
  `s.hz` field under the read lock are modelled by a stream
  `hzs : ℕ → GF` of successive read results (with no concurrent
  `SetFPS` writer every read returns the stored field).
* Go channels: the `stopped` channel is a boolean (closed or not) per
  loop iteration; the unbuffered `sched` channel is modelled by the
  FIFO list of its currently blocked senders (the Go runtime wakes
  channel waiters in FIFO order), and nil-ness of the channel by a
  boolean field `schedNil`, since a send on a nil channel can never
  proceed.
* `time.Time` values (`realtime`) are a deterministic function of the
  recorded frame-time argument; traces therefore record only the
  `(step, frameTime)` arguments of each hook call site.
* Loops that Go runs unboundedly are given fuel; a `done` flag records
  whether the loop finished within the fuel, and an outer driver
  returning `none` means the Go loop had not yet returned after the
  modelled number of iterations.
-/

namespace Gt3

/-- Model of the Go `float64` values held by the scheduler: a rational
number, or positive infinity (reachable via `1.0 / float64(0)`). -/
inductive GF where
  | fin (q : ℚ)
  | inf
deriving DecidableEq, Repr

namespace GF

/-- IEEE-754 addition restricted to the reachable values: finite plus
finite is exact rational addition, anything plus `+Inf` is `+Inf`. -/
def add : GF → GF → GF
  | fin a, fin b => fin (a + b)
  | _, _ => inf

instance : Add GF := ⟨GF.add⟩

/-- IEEE-754 `<` on the reachable values. -/
def blt : GF → GF → Bool
  | fin a, fin b => decide (a < b)
  | fin _, inf => true
  | inf, _ => false

/-- IEEE-754 `<=` on the reachable values. -/
def ble : GF → GF → Bool
  | fin a, fin b => decide (a ≤ b)
  | fin _, inf => true
  | inf, fin _ => false
  | inf, inf => true

end GF

/-- Model of the Go `error` values produced by `frameloop.go`
(`nil` is `Option.none` around this type). -/
inductive GoErr where
  | badFPS
  | stopped
deriving DecidableEq, Repr

/-- The `Sim` struct of the primary variant.  The three hook fields
(`PreFrame`, `Frame`, `Render`) are external callbacks; traces record
the arguments of each `runOp` call site instead.  `schedNil` records
whether the `sched chan Op` field is the nil channel (the zero value
left by `NewSim`, replaced by a fresh channel on entry to `Run`). -/
structure Sim where
  fps : Int
  hz : GF
  rfps : Int
  rhz : GF
  runTime : Int
  baseTime : GF
  simTime : GF
  renderTime : GF
  schedNil : Bool
deriving DecidableEq, Repr

/-- Translation of `1.0 / float64(n)` for an integer `n`:
`+Inf` when `n = 0`, the exact rational `1/n` otherwise. -/
def floatInvInt (n : Int) : GF :=
  if n = 0 then .inf else .fin (1 / (n : ℚ))

/-- `NewSim(fps, renderfps, stop)` of the primary variant.  The Go
function panics when `fps <= 0`; the panic is modelled as `none`.
Struct fields absent from the Go composite literal hold their zero
values; in particular the `sched` channel is left nil
(`schedNil := true`). -/
def NewSim (fps renderfps : Int) : Option Sim :=
  if fps ≤ 0 then none
  else some
    { fps := fps
      rfps := renderfps
      hz := .fin (1 / (fps : ℚ))
      rhz := if 0 < renderfps then .fin (1 / (renderfps : ℚ)) else .fin 0
      runTime := 0
      baseTime := .fin 0
      simTime := .fin 0
      renderTime := .fin 0
      schedNil := true }

/-- `SetRenderFPS(fps)` of the primary variant: stores `fps` and
`1.0/float64(fps)` unconditionally and returns the previous `rfps`. -/
def SetRenderFPS (s : Sim) (fps : Int) : Sim × Int :=
  ({ s with rfps := fps, rhz := floatInvInt fps }, s.rfps)

/-- `SetFPS(fps)` of the primary variant: rejects `fps < 0` with
`ErrBadFPS` before touching any state; otherwise stores `fps` and
`1.0/float64(fps)` and returns the previous `fps` with a nil error. -/
def SetFPS (s : Sim) (fps : Int) : Sim × Int × Option GoErr :=
  if fps < 0 then (s, 0, some .badFPS)
  else ({ s with fps := fps, hz := floatInvInt fps }, s.fps, none)

/-- Go `int64(q)` conversion: truncation toward zero. -/
def truncQ (q : ℚ) : Int :=
  if 0 ≤ q then ⌊q⌋ else -⌊-q⌋

/-- The `realtime` helper: projects `base + after` seconds past the
Unix base onto the `(seconds, nanoseconds)` pair handed to
`time.Unix`. -/
def realtime (unixBase : Int) (base after : ℚ) : Int × Int :=
  let real := base + after
  let secs := unixBase + truncQ real
  let frac := real - ⌊real⌋
  let nanos := truncQ ((1000000000 : ℚ) * frac)
  (secs, nanos)

/-- `Seconds()` accessor: the scheduler's own simulation time. -/
def Seconds (s : Sim) : GF := s.simTime

/-- Result of the primary variant's stepping loop
`for now = s.Now(); sim < now; now = s.Now() { ... }`:
the `(step, frameTime)` argument pairs of the `s.frame` calls made, the
values of the local variables `sim`, `hz` and `now` at loop exit, and
whether the loop exited within the supplied fuel. -/
structure StepOut where
  calls : List (GF × GF)
  sim : GF
  hz : GF
  now : ℚ
  done : Bool
deriving DecidableEq, Repr

/-- The primary variant's stepping loop (lines 167-178 of
`frameloop.go`).  `nIdx` indexes the next `s.Now()` reading and `hIdx`
the next `s.hz` read; each iteration calls `s.frame(hz, sim, ...)`,
advances `sim` by `hz`, writes it back to `s.simTime` (recorded via the
returned `sim`), and re-reads `hz` when `sim < now` still holds against
the iteration's `now`. -/
def stepV1 (nows : ℕ → ℚ) (hzs : ℕ → GF) :
    ℕ → ℕ → ℕ → GF → GF → StepOut
  | 0, nIdx, _, sim, hz => ⟨[], sim, hz, nows nIdx, false⟩
  | fuel + 1, nIdx, hIdx, sim, hz =>
    let now := nows nIdx
    if GF.blt sim (.fin now) then
      let sim2 := sim + hz
      if GF.blt sim2 (.fin now) then
        let rest := stepV1 nows hzs fuel (nIdx + 1) (hIdx + 1) sim2 (hzs hIdx)
        ⟨(hz, sim) :: rest.calls, rest.sim, rest.hz, rest.now, rest.done⟩
      else
        let rest := stepV1 nows hzs fuel (nIdx + 1) hIdx sim2 hz
        ⟨(hz, sim) :: rest.calls, rest.sim, rest.hz, rest.now, rest.done⟩
    else ⟨[], sim, hz, now, true⟩

/-- The primary variant's render gate (lines 180-197): when `rfps > 0`,
render only if `now >= s.renderTime` and then set
`renderTime = now + rhz`; otherwise render unconditionally, passing
`now` as the frame time, and set `renderTime = now`.  Returns the
`runOp(s.Render, ...)` arguments (if the call happened) and the new
`renderTime`. -/
def renderGateV1 (rfps : Int) (rhz rt hz : GF) (now : ℚ) :
    Option (GF × GF) × GF :=
  if 0 < rfps then
    if GF.ble rt (.fin now) then (some (hz, .fin now), .fin now + rhz)
    else (none, rt)
  else (some (hz, .fin now), .fin now)

/-- Iterated render gate: the fired/not-fired flag of each successive
loop iteration, threading `renderTime` through, for a given sequence of
`now` readings at the gate (the `hz` argument does not influence the
gate decision and is passed as a placeholder). -/
def gateSeq (rfps : Int) (rhz : GF) : GF → List ℚ → List Bool
  | _, [] => []
  | rt, now :: rest =>
    (renderGateV1 rfps rhz rt (.fin 0) now).1.isSome ::
      gateSeq rfps rhz (renderGateV1 rfps rhz rt (.fin 0) now).2 rest

/-- Result of one `runSim` call of the primary variant that did not
take the early stop return: the updated struct, the argument pairs of
the `runOp(s.PreFrame, ...)` call, of each `s.frame(...)` call and of
the `runOp(s.Render, ...)` call (when made), and whether the stepping
loop exited within the fuel. -/
structure IterOut where
  st : Sim
  preCall : Option (GF × GF)
  frameCalls : List (GF × GF)
  renderCall : Option (GF × GF)
  stepDone : Bool
deriving DecidableEq, Repr

/-- One `runSim(ubase, stopped)` call of the primary variant
(lines 144-200): if the stop channel is closed, return `ErrStopped` at
once without touching any state or hook; otherwise read `sim` and the
first `hz`, call the pre-frame hook, run the stepping loop, run the
render gate on the loop-exit `now` and `hz`, and return nil. -/
def runSimV1 (stoppedClosed : Bool) (nows : ℕ → ℚ) (hzs : ℕ → GF)
    (fuel : ℕ) (s : Sim) : Option GoErr × IterOut :=
  if stoppedClosed then (some .stopped, ⟨s, none, [], none, true⟩)
  else
    let sim := s.simTime
    let hz := hzs 0
    let out := stepV1 nows hzs fuel 0 1 sim hz
    let gate := renderGateV1 s.rfps s.rhz s.renderTime out.hz out.now
    (none,
      ⟨{ s with simTime := out.sim, renderTime := gate.2 },
        some (hz, sim), out.calls, gate.1, out.done⟩)

/-- The per-iteration environment of the primary variant's `Run` loop:
whether the stop channel is closed when this iteration checks it, and
the iteration's streams of `s.Now()` readings and `s.hz` reads. -/
structure Env1 where
  stoppedClosed : Bool
  nows : ℕ → ℚ
  hzs : ℕ → GF

/-- The primary variant's `Run` loop body (lines 211-215): repeat
`runSim`, returning its error as soon as it is non-nil.  `i` is the
current iteration index into the environment; the driver returns
`none` when the Go loop has not returned within the modelled number of
iterations. -/
def runLoopV1 (env : ℕ → Env1) (fuel : ℕ) :
    ℕ → ℕ → Sim → Option (Option GoErr × Sim)
  | _, 0, _ => none
  | i, iters + 1, s =>
    let r := runSimV1 (env i).stoppedClosed (env i).nows (env i).hzs fuel s
    match r.1 with
    | some e => some (some e, r.2.st)
    | none => runLoopV1 env fuel (i + 1) iters r.2.st

/-- Entry to the primary variant's `Run` (lines 202-210): create the
`sched` channel (so it is no longer nil), reset the time source, and
set `runTime`, `simTime` and `baseTime`; `renderTime` is left alone. -/
def runInit (ubase : Int) (getTime : ℚ) (s : Sim) : Sim :=
  { s with schedNil := false, runTime := ubase,
           simTime := .fin 0, baseTime := .fin getTime }

/-- The primary variant's `Run()`: initialisation followed by the
loop. -/
def RunV1 (ubase : Int) (getTime : ℚ) (env : ℕ → Env1) (fuel iters : ℕ)
    (s : Sim) : Option (Option GoErr × Sim) :=
  runLoopV1 env fuel 0 iters (runInit ubase getTime s)

/-- An event observable inside one `s.frame` call: execution of a
queued op, or the invocation of the `Frame` hook. -/
inductive FrameEvent (α : Type) where
  | op (a : α)
  | frameHook
deriving DecidableEq, Repr

/-- `pollSched` (lines 120-129): a select-with-default loop that
receives from the unbuffered `sched` channel until no sender is
blocked on it, running each received op to completion (`op.Do`) before
the next receive.  The channel is modelled by the FIFO list of its
currently blocked senders; the returned trace is the sequence of op
executions. -/
def pollSched {α : Type} : List α → List (FrameEvent α)
  | [] => []
  | a :: rest => .op a :: pollSched rest

/-- `frame` (lines 137-140): drain the op queue via `pollSched`, then
invoke the `Frame` hook via `runOp` (skipped when the hook is nil,
i.e. `hookSet = false`).  Returns the ordered trace of events. -/
def frameEvents {α : Type} (queue : List α) (hookSet : Bool) :
    List (FrameEvent α) :=
  pollSched queue ++ (if hookSet then [.frameHook] else [])

/-- Outcome of the `select` in `Sched`/`Sync`:
the op was handed to the loop (`delivered`), the stop case fired and
the submission was abandoned (`abandoned`), or neither case was ready
and the submitter stays blocked (`blocked`). -/
inductive HandoffResult where
  | delivered
  | abandoned
  | blocked
deriving DecidableEq, Repr

/-- Go semantics of `select { case s.sched <- op: ... case <-s.stopped: ... }`:
a send on a nil channel is never ready; a send on a non-nil unbuffered
channel is ready only when a receiver is ready; the stop case is ready
when the stop channel is closed; when both cases are ready the runtime
picks either one (`pickSend`); when neither is ready the select
blocks. -/
def schedSelect (pickSend schedNil recvReady stopClosed : Bool) :
    HandoffResult :=
  let sendReady := !schedNil && recvReady
  if sendReady && (pickSend || !stopClosed) then .delivered
  else if stopClosed then .abandoned
  else .blocked

/-- Outcome of a `Sync(op)` call for its caller. -/
inductive SyncOutcome where
  | ranOp
  | droppedByStop
  | stillBlocked
deriving DecidableEq, Repr

/-- `Sync` (lines 230-242): select between handing the wrapped op to
the loop and the stop channel.  If the send case is selected the op
runs on the loop goroutine and the caller unblocks after `done` is
closed; if the stop case is selected `Sync` returns without the op
ever running; otherwise the caller remains blocked in the select. -/
def syncCall (schedNil pickSend recvReady stopClosed : Bool) : SyncOutcome :=
  match schedSelect pickSend schedNil recvReady stopClosed with
  | .delivered => .ranOp
  | .abandoned => .droppedByStop
  | .blocked => .stillBlocked

namespace V2

/-- The `Sim` struct of the secondary variant (no rate lock, no
`schedNil` distinction: its `NewSim` creates the channel). -/
structure Sim where
  fps : Int
  rfps : Int
  hz : ℚ
  rhz : ℚ
  baseTime : ℚ
  simTime : ℚ
  renderTime : ℚ
  runTime : Int
deriving DecidableEq, Repr

/-- `NewSim` of the secondary variant: panics (modelled as `none`) when
`fps <= 0`; otherwise `hz = 1/fps` and `rhz = 1/rfps` when
`rfps > 0`. -/
def NewSim (fps rfps : Int) : Option Sim :=
  if fps ≤ 0 then none
  else some
    { fps := fps
      rfps := rfps
      hz := 1 / (fps : ℚ)
      rhz := if 0 < rfps then 1 / (rfps : ℚ) else 0
      baseTime := 0
      simTime := 0
      renderTime := 0
      runTime := 0 }

/-- Result of the secondary variant's stepping loop: the `frameTime`
argument of each `s.frame` call, the final `sim`, and whether the loop
exited within the fuel. -/
structure StepOut where
  calls : List ℚ
  sim : ℚ
  done : Bool
deriving DecidableEq, Repr

/-- The secondary variant's stepping loop (lines 365-369 of the
combined source): `for hz := s.hz; sim+hz <= now { frame(sim); sim += hz }`,
with `hz` read once before the loop and `now` fixed from the reading
taken at the top of the iteration. -/
def stepLoop (now hz : ℚ) : ℕ → ℚ → StepOut
  | 0, sim => ⟨[], sim, false⟩
  | fuel + 1, sim =>
    if sim + hz ≤ now then
      let rest := stepLoop now hz fuel (sim + hz)
      ⟨sim :: rest.calls, rest.sim, rest.done⟩
    else ⟨[], sim, true⟩

/-- Result of one complete iteration of the secondary variant's `Run`
loop body. -/
structure IterOut where
  st : Sim
  preCall : Option ℚ
  frameCalls : List ℚ
  renderCall : Option ℚ
  stepDone : Bool
deriving DecidableEq, Repr

/-- One iteration of the secondary variant's `Run` loop body
(lines 350-381): if the stop channel is closed, `return nil`
(`Sum.inl none`); otherwise read `now`, run the pre-frame hook with
`sim`, run the stepping loop, and gate the render: with `rfps > 0`
reacquire the time (`now2`) and render (passing the stepped `sim`)
only when `now2 >= renderTime`, then set `renderTime = now2 + rhz`;
with `rfps <= 0` render unconditionally, passing the stepped `sim`,
leaving `renderTime` alone. -/
def runIter (stoppedClosed : Bool) (now now2 : ℚ) (fuel : ℕ) (s : Sim) :
    Sum (Option GoErr) IterOut :=
  if stoppedClosed then .inl none
  else
    let sim := s.simTime
    let out := stepLoop now s.hz fuel sim
    if 0 < s.rfps then
      if s.renderTime ≤ now2 then
        .inr ⟨{ s with simTime := out.sim, renderTime := now2 + s.rhz },
          some sim, out.calls, some out.sim, out.done⟩
      else
        .inr ⟨{ s with simTime := out.sim }, some sim, out.calls, none,
          out.done⟩
    else
      .inr ⟨{ s with simTime := out.sim }, some sim, out.calls,
        some out.sim, out.done⟩

/-- Per-iteration environment of the secondary variant's `Run` loop:
stop-channel state and the iteration's two time readings. -/
structure Env where
  stoppedClosed : Bool
  now : ℚ
  now2 : ℚ

/-- The secondary variant's `Run` loop: iterate the body; the body's
`return` ends the loop with the returned error value (nil on stop). -/
def runLoop (env : ℕ → Env) (fuel : ℕ) :
    ℕ → ℕ → Sim → Option (Option GoErr × Sim)
  | _, 0, _ => none
  | i, iters + 1, s =>
    match runIter (env i).stoppedClosed (env i).now (env i).now2 fuel s with
    | .inl err => some (err, s)
    | .inr out => runLoop env fuel (i + 1) iters out.st

end V2

/-- Projection of a frame event to the op it executes, if any. -/
def FrameEvent.opVal {α : Type} : FrameEvent α → Option α
  | .op a => some a
  | .frameHook => none

/-- Concrete prior state used by the witness of `setFPS_neg_rejected`. -/
def c6sim : Sim :=
  { fps := 60, hz := .fin (1 / 60), rfps := 30, rhz := .fin (1 / 30),
    runTime := 0, baseTime := .fin 0, simTime := .fin 0,
    renderTime := .fin 0, schedNil := true }

/-- Concrete prior state used by the witness of `setFPS_zero_accepted`. -/
def c8sim : Sim :=
  { fps := 60, hz := .fin (1 / 60), rfps := 0, rhz := .fin 0,
    runTime := 0, baseTime := .fin 0, simTime := .fin 0,
    renderTime := .fin 0, schedNil := true }

/-- `Now()` readings for the counterexample to the claimed stepping
condition: the time source sits at `1/2`, less than one full step
(`hz = 1`) past `simTime = 0`. -/
def c1nows : ℕ → ℚ := fun _ => 1 / 2

/-- `s.hz` readings for the stepping-condition counterexample. -/
def c1hzs : ℕ → GF := fun _ => .fin 1

/-- `Now()` readings used by the witness of the amended stepping
claim. -/
def w1nows : ℕ → ℚ := fun _ => 1

/-- `s.hz` readings used by the witness of the amended stepping
claim. -/
def w1hzs : ℕ → GF := fun _ => .fin 1

/-- Primary-variant loop environment whose stop channel is closed from
the first iteration. -/
def c2env : ℕ → Env1 := fun _ => ⟨true, fun _ => 0, fun _ => .fin 1⟩

/-- Concrete primary-variant state for the stop-return claim. -/
def c2sim : Sim :=
  { fps := 60, hz := .fin (1 / 60), rfps := 0, rhz := .fin 0,
    runTime := 0, baseTime := .fin 0, simTime := .fin 0,
    renderTime := .fin 0, schedNil := true }

/-- Secondary-variant loop environment whose stop channel is closed
from the first iteration. -/
def c2env2 : ℕ → V2.Env := fun _ => ⟨true, 0, 0⟩

/-- Concrete secondary-variant state for the stop-return claim. -/
def c2sim2 : V2.Sim :=
  { fps := 60, rfps := 0, hz := 1 / 60, rhz := 0,
    baseTime := 0, simTime := 0, renderTime := 0, runTime := 0 }

/-- `Now()` readings for the render-argument counterexample. -/
def c3nows : ℕ → ℚ := fun _ => 1 / 2

/-- `s.hz` readings for the render-argument counterexample. -/
def c3hzs : ℕ → GF := fun _ => .fin 1

/-- Concrete unthrottled (`rfps = 0`) primary-variant state for the
render-argument counterexample. -/
def c3sim : Sim :=
  { fps := 1, hz := .fin 1, rfps := 0, rhz := .fin 0,
    runTime := 0, baseTime := .fin 0, simTime := .fin 0,
    renderTime := .fin 0, schedNil := false }

/-- `Now()` readings used by the witness of the amended render-argument
claim. -/
def w3nows : ℕ → ℚ := fun _ => 0

/-- `s.hz` readings used by the witness of the amended render-argument
claim. -/
def w3hzs : ℕ → GF := fun _ => .fin 1

/-- Concrete unthrottled primary-variant state used by the witness of
the amended render-argument claim. -/
def w3sim : Sim :=
  { fps := 1, hz := .fin 1, rfps := 0, rhz := .fin 0,
    runTime := 0, baseTime := .fin 0, simTime := .fin 0,
    renderTime := .fin 0, schedNil := false }

/-- Concrete unthrottled secondary-variant state used by the witness of
the amended render-argument claim. -/
def w3sim2 : V2.Sim :=
  { fps := 1, rfps := 0, hz := 1, rhz := 0,
    baseTime := 0, simTime := 0, renderTime := 0, runTime := 0 }

/-- `Now()` readings used by the witness of the step-monotonicity
claim: enough real time for two steps of size one. -/
def w5nows : ℕ → ℚ := fun _ => 3 / 2

/-- `s.hz` readings used by the witness of the step-monotonicity
claim. -/
def w5hzs : ℕ → GF := fun _ => .fin 1

/-- Concrete freshly constructed state used by the witness of the
nil-channel claim: the value `NewSim 1 0` returns. -/
def c10sim : Sim :=
  { fps := 1, hz := .fin 1, rfps := 0, rhz := .fin 0,
    runTime := 0, baseTime := .fin 0, simTime := .fin 0,
    renderTime := .fin 0, schedNil := true }

end Gt3

namespace Gt3

namespace GF

@[simp] theorem fin_add_fin (a b : ℚ) : (fin a + fin b) = fin (a + b) := rfl

@[simp] theorem add_inf (g : GF) : g + inf = inf := by cases g <;> rfl

@[simp] theorem inf_add (g : GF) : inf + g = inf := rfl

@[simp] theorem blt_fin_fin (a b : ℚ) :
    blt (fin a) (fin b) = decide (a < b) := rfl

@[simp] theorem blt_fin_inf (a : ℚ) : blt (fin a) inf = true := rfl

@[simp] theorem blt_inf (g : GF) : blt inf g = false := rfl

@[simp] theorem ble_fin_fin (a b : ℚ) :
    ble (fin a) (fin b) = decide (a ≤ b) := rfl

@[simp] theorem ble_fin_inf (a : ℚ) : ble (fin a) inf = true := rfl

@[simp] theorem ble_inf_fin (a : ℚ) : ble inf (fin a) = false := rfl

@[simp] theorem ble_inf_inf : ble inf inf = true := rfl

theorem ble_refl (g : GF) : ble g g = true := by cases g <;> simp

theorem ble_trans {a b c : GF} (h1 : ble a b = true) (h2 : ble b c = true) :
    ble a c = true := by
  cases a <;> cases b <;> cases c <;> simp_all
  exact le_trans h1 h2

theorem ble_of_blt {a b : GF} (h : blt a b = true) : ble a b = true := by
  cases a <;> cases b <;> simp_all
  exact le_of_lt h

/-- Adding a strictly positive increment strictly increases a finite
value. -/
theorem blt_add_pos {q : ℚ} {h : GF} (hp : blt (fin 0) h = true) :
    blt (fin q) (fin q + h) = true := by
  cases h <;> simp_all

/-- Adding a strictly positive increment never decreases a value. -/
theorem ble_add_pos {g h : GF} (hp : blt (fin 0) h = true) :
    ble g (g + h) = true := by
  cases g <;> cases h <;> simp_all
  exact le_of_lt (by linarith)

end GF

/-- C6: for every prior state and every negative rate, `SetFPS` returns
`ErrBadFPS` and returns the state entirely unchanged (in particular the
stored `fps` and `hz`). -/
theorem setFPS_neg_rejected (s : Sim) (fps : Int) (h : fps < 0) :
    SetFPS s fps = (s, 0, some .badFPS) := by
  simp [SetFPS, h]

/-- Witness for `setFPS_neg_rejected` at the concrete state `c6sim`
and rate `-1`. -/
theorem setFPS_neg_rejected_witness :
    SetFPS c6sim (-1) = (c6sim, 0, some .badFPS) :=
  setFPS_neg_rejected c6sim (-1) (by decide)

/-- C7: `NewSim` fails fatally exactly when `fps <= 0`; for positive
`fps` the returned struct has `hz = 1/fps` exactly, and `rhz =
1/renderfps` when `renderfps > 0`. -/
theorem newSim_rates (fps renderfps : Int) :
    (NewSim fps renderfps = none ↔ fps ≤ 0) ∧
    (0 < fps → ∃ s, NewSim fps renderfps = some s ∧
      s.hz = .fin (1 / (fps : ℚ)) ∧
      (0 < renderfps → s.rhz = .fin (1 / (renderfps : ℚ)))) := by
  constructor
  · constructor
    · intro h
      by_contra hc
      simp [NewSim, hc] at h
    · intro h
      simp [NewSim, h]
  · intro h
    refine ⟨{ fps := fps, rfps := renderfps,
              hz := .fin (1 / (fps : ℚ)),
              rhz := if 0 < renderfps then .fin (1 / (renderfps : ℚ))
                     else .fin 0,
              runTime := 0, baseTime := .fin 0, simTime := .fin 0,
              renderTime := .fin 0, schedNil := true }, ?_, rfl, ?_⟩
    · simp [NewSim, not_le.mpr h]
    · intro hr
      simp [hr]

/-- Witness for `newSim_rates` at `fps = 60`, `renderfps = 30`. -/
theorem newSim_rates_witness :
    ∃ s, NewSim 60 30 = some s ∧ s.hz = .fin (1 / ((60 : Int) : ℚ)) ∧
      s.rhz = .fin (1 / ((30 : Int) : ℚ)) := by
  obtain ⟨s, h1, h2, h3⟩ := (newSim_rates 60 30).2 (by decide)
  exact ⟨s, h1, h2, h3 (by decide)⟩

/-- C8: for every prior state, `SetFPS 0` is accepted: it returns a nil
error and stores `fps = 0` and `hz = 1.0/0.0 = +Inf`, even though the
constructor treats `fps = 0` as fatal. -/
theorem setFPS_zero_accepted (s : Sim) (renderfps : Int) :
    (SetFPS s 0).2.2 = none ∧ (SetFPS s 0).1.hz = .inf ∧
    (SetFPS s 0).1.fps = 0 ∧ NewSim 0 renderfps = none := by
  refine ⟨?_, ?_, ?_, ?_⟩ <;> simp [SetFPS, floatInvInt, NewSim]

/-- Witness for `setFPS_zero_accepted` at the concrete state `c8sim`. -/
theorem setFPS_zero_accepted_witness :
    (SetFPS c8sim 0).2.2 = none ∧ (SetFPS c8sim 0).1.hz = .inf ∧
    (SetFPS c8sim 0).1.fps = 0 ∧ NewSim 0 0 = none :=
  setFPS_zero_accepted c8sim 0

theorem pollSched_eq_map {α : Type} (queue : List α) :
    pollSched queue = queue.map FrameEvent.op := by
  induction queue with
  | nil => rfl
  | cons a rest ih => simp [pollSched, ih]

theorem filterMap_opVal_map {α : Type} (queue : List α) :
    List.filterMap (FrameEvent.opVal ∘ FrameEvent.op) queue = queue := by
  induction queue with
  | nil => rfl
  | cons a rest ih =>
    simp [List.filterMap_cons, FrameEvent.opVal, ih, Function.comp]

/-- C9: within one fixed-step increment, `frame` first drains the op
queue — every op queued at that moment runs, in submission order, each
to completion before the next is dequeued (the trace is sequential) —
and only then invokes the per-step `Frame` hook, so every queued op
runs before the hook. -/
theorem frame_drains_in_order {α : Type} (queue : List α) :
    frameEvents queue true =
      queue.map FrameEvent.op ++ [FrameEvent.frameHook] ∧
    (frameEvents queue true).filterMap FrameEvent.opVal = queue ∧
    ∀ a ∈ queue, FrameEvent.op a ∈ frameEvents queue true := by
  have hmap := pollSched_eq_map queue
  refine ⟨by simp [frameEvents, hmap], ?_, ?_⟩
  · simp [frameEvents, hmap, List.filterMap_append, List.filterMap_map,
      filterMap_opVal_map, FrameEvent.opVal]
  · intro a ha
    have h1 : FrameEvent.op a ∈ queue.map FrameEvent.op :=
      List.mem_map_of_mem _ ha
    unfold frameEvents
    rw [hmap]
    exact List.mem_append_left _ h1

/-- Witness for `frame_drains_in_order` at the concrete queue
`[0, 1, 2]`. -/
theorem frame_drains_in_order_witness :
    frameEvents [0, 1, 2] true =
      [0, 1, 2].map FrameEvent.op ++ [FrameEvent.frameHook] ∧
    (frameEvents [0, 1, 2] true).filterMap FrameEvent.opVal = [0, 1, 2] ∧
    ∀ a ∈ [0, 1, 2], FrameEvent.op a ∈ frameEvents [0, 1, 2] true :=
  frame_drains_in_order ([0, 1, 2] : List ℕ)

/-- C10: the primary variant's `NewSim` leaves the `sched` channel nil;
it becomes non-nil only on entry to `Run`.  While it is nil the send
case of the submission select can never be chosen, so an op submitted
before `Run` begins is never delivered (it never executes), a `Sync`
caller stays blocked until the stop channel closes, and when the stop
channel closes the submission is abandoned with the op dropped. -/
theorem preRun_sched_never_delivers (fps renderfps : Int) (s : Sim)
    (pickSend recvReady stopClosed : Bool) (ubase : Int) (getTime : ℚ)
    (h : NewSim fps renderfps = some s) :
    s.schedNil = true ∧
    (runInit ubase getTime s).schedNil = false ∧
    schedSelect pickSend s.schedNil recvReady stopClosed ≠ .delivered ∧
    syncCall s.schedNil pickSend recvReady stopClosed ≠ .ranOp ∧
    (syncCall s.schedNil pickSend recvReady stopClosed = .droppedByStop ↔
      stopClosed = true) := by
  have hnil : s.schedNil = true := by
    rw [NewSim] at h
    split at h
    · cases h
    · simp only [Option.some.injEq] at h
      subst h
      rfl
  rw [hnil]
  refine ⟨rfl, rfl, ?_, ?_, ?_⟩ <;>
    cases pickSend <;> cases recvReady <;> cases stopClosed <;> decide

/-- Witness for `preRun_sched_never_delivers` at the state returned by
`NewSim 1 0`, with a ready receiver and an unfired stop channel. -/
theorem preRun_sched_never_delivers_witness :
    c10sim.schedNil = true ∧
    (runInit 0 0 c10sim).schedNil = false ∧
    schedSelect true c10sim.schedNil true false ≠ .delivered ∧
    syncCall c10sim.schedNil true true false ≠ .ranOp ∧
    (syncCall c10sim.schedNil true true false = .droppedByStop ↔
      false = true) :=
  preRun_sched_never_delivers 1 0 c10sim true true false 0 0
    (by norm_num [NewSim, c10sim])

theorem stepLoopV2_calls_le (now hz2 : ℚ) (fuel2 : ℕ) :
    ∀ (sim2 : ℚ), ∀ c ∈ (V2.stepLoop now hz2 fuel2 sim2).calls,
      c + hz2 ≤ now := by
  induction fuel2 with
  | zero => intro sim2 c hc; simp [V2.stepLoop] at hc
  | succ fuel2 ih =>
    intro sim2 c hc
    by_cases h : sim2 + hz2 ≤ now
    · simp only [V2.stepLoop, if_pos h] at hc
      rcases List.mem_cons.mp hc with rfl | hc2
      · exact h
      · exact ih (sim2 + hz2) c hc2
    · simp [V2.stepLoop, h] at hc

theorem stepLoopV2_done (now hz2 : ℚ) (fuel2 : ℕ) :
    ∀ (sim2 : ℚ), (V2.stepLoop now hz2 fuel2 sim2).done = true →
      ¬ ((V2.stepLoop now hz2 fuel2 sim2).sim + hz2 ≤ now) := by
  induction fuel2 with
  | zero => intro sim2 h; simp [V2.stepLoop] at h
  | succ fuel2 ih =>
    intro sim2
    by_cases h : sim2 + hz2 ≤ now
    · simp only [V2.stepLoop, if_pos h]
      exact ih (sim2 + hz2)
    · simp [V2.stepLoop, h]

/-- C1 (amended): the primary variant's stepping loop advances while
`simTime < Now()` (the reading refreshed at each check), not while
`simTime + hz <= Now()`: it performs zero steps, leaving `simTime`
unchanged, exactly when `Now() <= simTime`, and performs at least one
step whenever `simTime < Now()` — even when `Now() - simTime < hz`.
The secondary variant's loop behaves as originally claimed: with `now`
the iteration's reading, it steps exactly while `simTime + hz <= now`,
so each step's frame time satisfies that bound, the loop stops as soon
as it fails, and when `now - simTime < hz` it performs zero steps and
leaves `simTime` unchanged. -/
theorem c1_step_conditions (nows : ℕ → ℚ) (hzs : ℕ → GF) (fuel nIdx hIdx : ℕ)
    (sim hz : GF) (now hz2 sim2 : ℚ) (fuel2 : ℕ) :
    (GF.blt sim (.fin (nows nIdx)) = false →
      stepV1 nows hzs (fuel + 1) nIdx hIdx sim hz =
        ⟨[], sim, hz, nows nIdx, true⟩) ∧
    (GF.blt sim (.fin (nows nIdx)) = true →
      (stepV1 nows hzs (fuel + 1) nIdx hIdx sim hz).calls ≠ []) ∧
    (¬ (sim2 + hz2 ≤ now) →
      V2.stepLoop now hz2 (fuel2 + 1) sim2 = ⟨[], sim2, true⟩) ∧
    (∀ c ∈ (V2.stepLoop now hz2 fuel2 sim2).calls, c + hz2 ≤ now) ∧
    ((V2.stepLoop now hz2 fuel2 sim2).done = true →
      ¬ ((V2.stepLoop now hz2 fuel2 sim2).sim + hz2 ≤ now)) := by
  refine ⟨?_, ?_, ?_, stepLoopV2_calls_le now hz2 fuel2 sim2,
    stepLoopV2_done now hz2 fuel2 sim2⟩
  · intro h; simp [stepV1, h]
  · intro h
    simp only [stepV1, h, if_true]
    split <;> simp
  · intro h; simp [V2.stepLoop, h]

/-- Witness for `c1_step_conditions`: with the time source at `1` and
`simTime = 1` the primary loop performs zero steps and leaves `simTime`
unchanged; with `sim2 = 0`, `hz2 = 2`, `now = 1` (less than one full
step available) the secondary loop performs zero steps. -/
theorem c1_step_conditions_witness :
    stepV1 w1nows w1hzs 1 0 1 (.fin 1) (.fin 1) =
      ⟨[], .fin 1, .fin 1, 1, true⟩ ∧
    V2.stepLoop 1 2 1 0 = ⟨[], 0, true⟩ :=
  ⟨(c1_step_conditions w1nows w1hzs 0 0 1 (.fin 1) (.fin 1) 1 2 0 0).1
      (by norm_num [w1nows]),
   (c1_step_conditions w1nows w1hzs 0 0 1 (.fin 1) (.fin 1) 1 2 0 0).2.2.1
      (by norm_num)⟩

/-- C1 counterexample: with `simTime = 0`, `hz = 1` and the time source
at `1/2` — so `Now() - simTime < hz` and the claim demands zero
frame-hook invocations and an unchanged `simTime` — the primary
variant's stepping loop still performs one step: exactly one `frame`
call and `simTime` moves to `1`. -/
theorem c1_counterexample :
    ((1 : ℚ) / 2 - 0 < 1) ∧
    (stepV1 c1nows c1hzs 3 0 1 (.fin 0) (.fin 1)).calls =
      [(.fin 1, .fin 0)] ∧
    (stepV1 c1nows c1hzs 3 0 1 (.fin 0) (.fin 1)).sim = .fin 1 := by
  refine ⟨by norm_num, ?_, ?_⟩ <;>
    norm_num [stepV1, c1nows, c1hzs]

theorem stepV1_head (nows : ℕ → ℚ) (hzs : ℕ → GF) (fuel nIdx hIdx : ℕ)
    (sim hz : GF) (c : GF × GF)
    (h : (stepV1 nows hzs fuel nIdx hIdx sim hz).calls.head? = some c) :
    c = (hz, sim) := by
  cases fuel with
  | zero => simp [stepV1] at h
  | succ fuel =>
    simp only [stepV1] at h
    split at h
    · split at h <;> simp_all
    · simp at h

/-- C5: the frame-time arguments observed by the step callback are
strictly increasing, each consecutive pair spaced by exactly the `hz`
the earlier step was invoked with (the value sampled for that
increment, so a rate change affects only later increments, never ones
already performed); `simTime` never decreases across the whole loop,
whatever positive `hz` values the re-reads return. -/
theorem c5_simtime_monotone (nows : ℕ → ℚ) (hzs : ℕ → GF)
    (hhzs : ∀ i, GF.blt (.fin 0) (hzs i) = true) (fuel : ℕ) :
    ∀ (nIdx hIdx : ℕ) (sim hz : GF), GF.blt (.fin 0) hz = true →
      List.Chain'
        (fun a b : GF × GF => b.2 = a.2 + a.1 ∧ GF.blt a.2 b.2 = true)
        (stepV1 nows hzs fuel nIdx hIdx sim hz).calls ∧
      (∀ c ∈ (stepV1 nows hzs fuel nIdx hIdx sim hz).calls,
        GF.ble sim c.2 = true) ∧
      GF.ble sim (stepV1 nows hzs fuel nIdx hIdx sim hz).sim = true := by
  induction fuel with
  | zero =>
    intro nIdx hIdx sim hz hhz
    simp [stepV1, GF.ble_refl]
  | succ fuel ih =>
    intro nIdx hIdx sim hz hhz
    by_cases hg : GF.blt sim (.fin (nows nIdx)) = true
    · obtain ⟨q, rfl⟩ : ∃ q, sim = GF.fin q := by
        cases sim with
        | fin q => exact ⟨q, rfl⟩
        | inf => simp at hg
      have hstep : GF.ble (GF.fin q) (GF.fin q + hz) = true :=
        GF.ble_add_pos hhz
      by_cases hg2 : GF.blt (GF.fin q + hz) (.fin (nows nIdx)) = true
      · have IH := ih (nIdx + 1) (hIdx + 1) (GF.fin q + hz) (hzs hIdx)
          (hhzs hIdx)
        have hcalls : (stepV1 nows hzs (fuel + 1) nIdx hIdx
            (GF.fin q) hz).calls = (hz, GF.fin q) ::
              (stepV1 nows hzs fuel (nIdx + 1) (hIdx + 1)
                (GF.fin q + hz) (hzs hIdx)).calls := by
          simp [stepV1, hg, hg2]
        have hsim : (stepV1 nows hzs (fuel + 1) nIdx hIdx
            (GF.fin q) hz).sim = (stepV1 nows hzs fuel (nIdx + 1)
              (hIdx + 1) (GF.fin q + hz) (hzs hIdx)).sim := by
          simp [stepV1, hg, hg2]
        rw [hcalls, hsim]
        refine ⟨?_, ?_, GF.ble_trans hstep IH.2.2⟩
        · rw [List.chain'_cons']
          refine ⟨?_, IH.1⟩
          intro b hb
          have hb2 := stepV1_head nows hzs fuel (nIdx + 1) (hIdx + 1)
            (GF.fin q + hz) (hzs hIdx) b hb
          subst hb2
          exact ⟨rfl, GF.blt_add_pos hhz⟩
        · intro c hc
          rcases List.mem_cons.mp hc with rfl | hc2
          · exact GF.ble_refl _
          · exact GF.ble_trans hstep (IH.2.1 c hc2)
      · have IH := ih (nIdx + 1) hIdx (GF.fin q + hz) hz hhz
        have hcalls : (stepV1 nows hzs (fuel + 1) nIdx hIdx
            (GF.fin q) hz).calls = (hz, GF.fin q) ::
              (stepV1 nows hzs fuel (nIdx + 1) hIdx
                (GF.fin q + hz) hz).calls := by
          simp [stepV1, hg, hg2]
        have hsim : (stepV1 nows hzs (fuel + 1) nIdx hIdx
            (GF.fin q) hz).sim = (stepV1 nows hzs fuel (nIdx + 1)
              hIdx (GF.fin q + hz) hz).sim := by
          simp [stepV1, hg, hg2]
        rw [hcalls, hsim]
        refine ⟨?_, ?_, GF.ble_trans hstep IH.2.2⟩
        · rw [List.chain'_cons']
          refine ⟨?_, IH.1⟩
          intro b hb
          have hb2 := stepV1_head nows hzs fuel (nIdx + 1) hIdx
            (GF.fin q + hz) hz b hb
          subst hb2
          exact ⟨rfl, GF.blt_add_pos hhz⟩
        · intro c hc
          rcases List.mem_cons.mp hc with rfl | hc2
          · exact GF.ble_refl _
          · exact GF.ble_trans hstep (IH.2.1 c hc2)
    · simp [stepV1, hg, GF.ble_refl]

/-- Witness for `c5_simtime_monotone`: two steps are taken from
`simTime = 0` with `hz = 1` and the time source at `3/2`. -/
theorem c5_simtime_monotone_witness :
    List.Chain'
      (fun a b : GF × GF => b.2 = a.2 + a.1 ∧ GF.blt a.2 b.2 = true)
      (stepV1 w5nows w5hzs 3 0 1 (.fin 0) (.fin 1)).calls ∧
    (∀ c ∈ (stepV1 w5nows w5hzs 3 0 1 (.fin 0) (.fin 1)).calls,
      GF.ble (.fin 0) c.2 = true) ∧
    GF.ble (.fin 0) (stepV1 w5nows w5hzs 3 0 1 (.fin 0) (.fin 1)).sim =
      true :=
  c5_simtime_monotone w5nows w5hzs (fun _ => by norm_num [w5hzs]) 3 0 1
    (.fin 0) (.fin 1) (by norm_num)

/-- C2 (amended): when the stop channel is closed at the start of a
loop iteration, the loop stops; the primary variant's `Run` then
returns the non-nil sentinel `ErrStopped` (propagated from `runSim`),
while the secondary variant's `Run` returns nil as originally
claimed. -/
theorem c2_stop_returns (env : ℕ → Env1) (fuel iters i : ℕ) (s : Sim)
    (env2 : ℕ → V2.Env) (fuel2 iters2 i2 : ℕ) (s2 : V2.Sim)
    (h1 : (env i).stoppedClosed = true)
    (h2 : (env2 i2).stoppedClosed = true) :
    runLoopV1 env fuel i (iters + 1) s = some (some .stopped, s) ∧
    V2.runLoop env2 fuel2 i2 (iters2 + 1) s2 = some (none, s2) := by
  constructor
  · simp [runLoopV1, runSimV1, h1]
  · simp [V2.runLoop, V2.runIter, h2]

/-- Witness for `c2_stop_returns` on environments whose stop channel is
closed from the first iteration. -/
theorem c2_stop_returns_witness :
    runLoopV1 c2env 1 0 1 c2sim = some (some .stopped, c2sim) ∧
    V2.runLoop c2env2 1 0 1 c2sim2 = some (none, c2sim2) :=
  c2_stop_returns c2env 1 0 0 c2sim c2env2 1 0 0 c2sim2 rfl rfl

/-- C2 counterexample: running the primary variant's `Run` on a state
with the stop channel already closed returns the error `ErrStopped`,
which is not nil, contradicting the claim that `Run` returns a nil
error when the stop signal fires. -/
theorem c2_counterexample :
    RunV1 0 0 c2env 1 1 c2sim = some (some .stopped, runInit 0 0 c2sim) ∧
    (some GoErr.stopped : Option GoErr) ≠ none := by
  constructor
  · simp [RunV1, runLoopV1, runSimV1, c2env]
  · simp

theorem renderGateV1_pos {rfps : Int} (hpos : 0 < rfps) (rhz rt hz : GF)
    (now : ℚ) :
    renderGateV1 rfps rhz rt hz now =
      if GF.ble rt (.fin now) then (some (hz, .fin now), .fin now + rhz)
      else (none, rt) := by
  simp [renderGateV1, hpos]

theorem gateSeq_cons (rfps : Int) (rhz rt : GF) (now : ℚ) (rest : List ℚ) :
    gateSeq rfps rhz rt (now :: rest) =
      (renderGateV1 rfps rhz rt (.fin 0) now).1.isSome ::
        gateSeq rfps rhz (renderGateV1 rfps rhz rt (.fin 0) now).2 rest :=
  rfl

/-- Until the gate first fires, `renderTime` is unchanged, so the first
firing needs a reading at least any lower bound of the starting
`renderTime`. -/
theorem gate_first_fire (rfps : Int) (rhz : GF) (hpos : 0 < rfps)
    (nows : List ℚ) :
    ∀ (rt : GF) (b : ℚ), GF.ble (.fin b) rt = true →
      ∀ j, (gateSeq rfps rhz rt nows).getD j false = true →
        (∀ k, k < j → (gateSeq rfps rhz rt nows).getD k false = false) →
        b ≤ nows.getD j 0 := by
  induction nows with
  | nil => intro rt b hb j hj hk; simp [gateSeq] at hj
  | cons now rest ih =>
    intro rt b hb j hj hk
    rw [gateSeq_cons] at hj hk
    cases hble : GF.ble rt (.fin now) with
    | true =>
      cases j with
      | zero =>
        have : GF.ble (.fin b) (.fin now) = true := GF.ble_trans hb hble
        simpa using this
      | succ j =>
        have h0 := hk 0 (Nat.succ_pos _)
        rw [renderGateV1_pos hpos] at h0
        simp [hble] at h0
    | false =>
      rw [renderGateV1_pos hpos] at hj hk
      cases j with
      | zero => simp [hble] at hj
      | succ j =>
        simp only [hble, if_false] at hj hk
        rw [List.getD_cons_succ] at hj
        refine ih rt b hb j hj ?_
        intro k hkj
        have := hk (k + 1) (by omega)
        rwa [List.getD_cons_succ] at this
    -- end cases

/-- After a firing at position `i` with `renderTime` advanced to
`nows[i] + q`, the next firing needs a reading at least `nows[i] + q`. -/
theorem gate_spacing_aux (rfps : Int) (q : ℚ) (hpos : 0 < rfps)
    (nows : List ℚ) :
    ∀ (rt : GF) (i j : ℕ), i < j →
      (gateSeq rfps (.fin q) rt nows).getD i false = true →
      (gateSeq rfps (.fin q) rt nows).getD j false = true →
      (∀ k, i < k → k < j →
        (gateSeq rfps (.fin q) rt nows).getD k false = false) →
      nows.getD i 0 + q ≤ nows.getD j 0 := by
  induction nows with
  | nil => intro rt i j hij hi hj hbet; simp [gateSeq] at hi
  | cons now rest ih =>
    intro rt i j hij hi hj hbet
    rw [gateSeq_cons] at hi hj hbet
    cases i with
    | zero =>
      cases hble : GF.ble rt (.fin now) with
      | false =>
        rw [renderGateV1_pos hpos] at hi
        simp [hble] at hi
      | true =>
        have hrt2 : (renderGateV1 rfps (.fin q) rt (.fin 0) now).2 =
            .fin (now + q) := by
          rw [renderGateV1_pos hpos]
          simp [hble]
        cases j with
        | zero => omega
        | succ j =>
          rw [List.getD_cons_succ, hrt2] at hj
          have hbet2 : ∀ k, k < j →
              (gateSeq rfps (.fin q) (GF.fin (now + q)) rest).getD k false
                = false := by
            intro k hkj
            have := hbet (k + 1) (Nat.succ_pos _) (by omega)
            rwa [List.getD_cons_succ, hrt2] at this
          have := gate_first_fire rfps (.fin q) hpos rest
            (.fin (now + q)) (now + q) (GF.ble_refl _) j hj hbet2
          simpa using this
    | succ i =>
      cases j with
      | zero => omega
      | succ j =>
        rw [List.getD_cons_succ] at hi hj
        simp only [List.getD_cons_succ]
        refine ih ((renderGateV1 rfps (.fin q) rt (.fin 0) now).2) i j
          (by omega) hi hj ?_
        intro k h1 h2
        have := hbet (k + 1) (by omega) (by omega)
        rwa [List.getD_cons_succ] at this

/-- C4: with rate limiting enabled (`rfps > 0`), the primary variant's
render gate fires exactly when the iteration's time reading `now`
satisfies `now >= renderTime`; on a firing it sets
`renderTime = now + rhz` (advancing from the current reading, not the
previous deadline) and otherwise leaves `renderTime` alone.
Consequently, for a fixed `rfps = R > 0` (so `rhz = 1/R`), any two
consecutive firings across a run happen at readings at least `1/R`
apart. -/
theorem c4_render_gate (rfps : Int) (rhz rt hz : GF) (now : ℚ)
    (rt0 : GF) (nows : List ℚ) (i j : ℕ) (hpos : 0 < rfps) :
    ((renderGateV1 rfps rhz rt hz now).1.isSome =
      GF.ble rt (.fin now)) ∧
    (GF.ble rt (.fin now) = true →
      (renderGateV1 rfps rhz rt hz now).1 = some (hz, .fin now) ∧
      (renderGateV1 rfps rhz rt hz now).2 = .fin now + rhz) ∧
    (GF.ble rt (.fin now) = false →
      (renderGateV1 rfps rhz rt hz now).1 = none ∧
      (renderGateV1 rfps rhz rt hz now).2 = rt) ∧
    (rhz = floatInvInt rfps → i < j →
      (gateSeq rfps rhz rt0 nows).getD i false = true →
      (gateSeq rfps rhz rt0 nows).getD j false = true →
      (∀ k, i < k → k < j →
        (gateSeq rfps rhz rt0 nows).getD k false = false) →
      nows.getD i 0 + 1 / (rfps : ℚ) ≤ nows.getD j 0) := by
  refine ⟨?_, ?_, ?_, ?_⟩
  · rw [renderGateV1_pos hpos]
    cases hble : GF.ble rt (.fin now) <;> simp [hble]
  · intro hble
    rw [renderGateV1_pos hpos]
    simp [hble]
  · intro hble
    rw [renderGateV1_pos hpos]
    simp [hble]
  · intro hq hij hi hj hbet
    have hq2 : rhz = .fin (1 / (rfps : ℚ)) := by
      rw [hq, floatInvInt, if_neg (by omega)]
    subst hq2
    exact gate_spacing_aux rfps (1 / (rfps : ℚ)) hpos nows rt0 i j hij
      hi hj hbet

/-- Witness for `c4_render_gate`: with `rfps = 2`, `renderTime = 0` and
a reading at `5`, the gate fires. -/
theorem c4_render_gate_witness :
    (renderGateV1 2 (.fin (1 / 2)) (.fin 0) (.fin 0) 5).1.isSome =
      GF.ble (.fin 0) (.fin 5) :=
  (c4_render_gate 2 (.fin (1 / 2)) (.fin 0) (.fin 0) 5 (.fin 0) [] 0 1
    (by norm_num)).1

/-- C3 (amended): in every iteration with render-rate limiting disabled
(`rfps <= 0`) the `Render` hook is invoked exactly once.  In the
primary variant its frame-time argument is the iteration's final
real-time reading `now` (the stepping loop's exit reading), not the
stepped simulation time; in the secondary variant it is the latest
simulation time (the `simTime` reached after this iteration's
stepping), as originally claimed. -/
theorem c3_render_unlimited (nows : ℕ → ℚ) (hzs : ℕ → GF) (fuel : ℕ)
    (s : Sim) (now now2 : ℚ) (fuel2 : ℕ) (s2 : V2.Sim)
    (h1 : s.rfps ≤ 0) (h2 : s2.rfps ≤ 0) :
    (runSimV1 false nows hzs fuel s).2.renderCall =
      some ((stepV1 nows hzs fuel 0 1 s.simTime (hzs 0)).hz,
        .fin (stepV1 nows hzs fuel 0 1 s.simTime (hzs 0)).now) ∧
    (∀ out, V2.runIter false now now2 fuel2 s2 = .inr out →
      out.renderCall = some out.st.simTime) := by
  constructor
  · simp [runSimV1, renderGateV1, not_lt.mpr h1]
  · intro out hout
    simp [V2.runIter, not_lt.mpr h2] at hout
    subst hout
    rfl

/-- Witness for `c3_render_unlimited` on concrete unthrottled states. -/
theorem c3_render_unlimited_witness :
    (runSimV1 false w3nows w3hzs 2 w3sim).2.renderCall =
      some ((stepV1 w3nows w3hzs 2 0 1 w3sim.simTime (w3hzs 0)).hz,
        .fin (stepV1 w3nows w3hzs 2 0 1 w3sim.simTime (w3hzs 0)).now) :=
  (c3_render_unlimited w3nows w3hzs 2 w3sim 0 0 0 w3sim2
    (by norm_num [w3sim]) (by norm_num [w3sim2])).1

/-- C3 counterexample: with `rfps = 0`, `simTime = 0`, `hz = 1` and the
time source at `1/2`, the primary variant's iteration steps `simTime`
to `1` but invokes `Render` with frame time `1/2` (the real-time
reading), not the latest simulation time `1`. -/
theorem c3_counterexample :
    (runSimV1 false c3nows c3hzs 3 c3sim).2.renderCall =
      some (.fin 1, .fin (1 / 2)) ∧
    (runSimV1 false c3nows c3hzs 3 c3sim).2.st.simTime = .fin 1 ∧
    GF.fin (1 / 2) ≠ GF.fin 1 := by
  refine ⟨?_, ?_, by norm_num⟩ <;>
    norm_num [runSimV1, stepV1, renderGateV1, c3nows, c3hzs, c3sim]

end Gt3
